import Mathlib

/-!
# Job portal: resume upload, role gates of the Application router, apply dialog

Shallow embedding of

* `full-stack-job-portal-server-main/App.js` (multer storage `filename`, `fileFilter`),
* `full-stack-job-portal-server-main/Router/ApplicationRouter.js` (the five routes),
* `full-stack-job-portal-server-main/Router/UserRouter.js` (upload callback of `PATCH /`),
* `full-stack-job-portal-client-main/src/pages/Job.jsx` (`preConfirm`, `catch` of `handleApply`).
-/

namespace JobPortal

/-! ## Server, App.js -/

/-- A JavaScript `Error` as far as the routes look at it: its `message`. -/
structure JsError where
  message : String
  deriving DecidableEq, Repr

/-- The file record multer passes to `fileFilter` and `filename`, and stores in `req.file`. -/
structure MulterFile where
  originalname : String
  mimetype : String
  deriving DecidableEq, Repr

/-- The array `allowedMimes` of `fileFilter` (App.js line 22). -/
def allowedMimes : List String :=
  ["application/pdf", "application/msword",
   "application/vnd.openxmlformats-officedocument.wordprocessingml.document"]

/-- Arguments with which `fileFilter` calls its callback: `cb(error, acceptFile)`. -/
structure FilterCb where
  error : Option JsError
  acceptFile : Bool
  deriving DecidableEq, Repr

/-- The function `fileFilter` of App.js (lines 21-29). -/
def fileFilter (file : MulterFile) : FilterCb :=
  if allowedMimes.contains file.mimetype then
    { error := none, acceptFile := true }
  else
    { error := some { message := "Only PDF and DOC files are allowed" }, acceptFile := false }

/-- The function `storage.filename` of App.js (lines 15-18): the name handed to `cb(null, name)`.
`now` is the value of `Date.now()` and `rnd` the value of `Math.round(Math.random() * 1e9)`,
both non-negative integers, which JavaScript prints in decimal when concatenated to a string. -/
def filename (now rnd : Nat) (file : MulterFile) : String :=
  let uniqueSuffix := toString now ++ "-" ++ toString rnd
  uniqueSuffix ++ "-" ++ file.originalname

/-! ## Server, upload callbacks of the routers -/

/-- One call of Express `next`: `next()` or `next(err)`. -/
inductive NextCall where
  | plain
  | withError (err : JsError)
  deriving DecidableEq, Repr

/-- The callback given to `req.app.upload.single("resume")` by `POST /apply`
(ApplicationRouter.js lines 32-42). `err` is the error multer reports (absent when `none`),
`reqFile` is `req.file`. The block of the `if` yields the calls made so far and whether a
`return` was executed; the final `next()` runs only when none was. -/
def applyUploadCallback (err : Option JsError) (reqFile : Option MulterFile) : List NextCall :=
  let block : List NextCall × Bool :=
    match err with
    | some e =>
      if e.message ≠ "Only PDF and DOC files are allowed" then
        if reqFile.isSome then ([NextCall.withError e], true) else ([], false)
      else ([NextCall.withError e], true)
    | none => ([], false)
  if block.2 then block.1 else block.1 ++ [NextCall.plain]

/-- The callback given to `req.app.upload.single("resume")` by `PATCH /api/v1/Users`
(UserRouter.js lines 27-37), embedded the same way as `applyUploadCallback`. -/
def updateUserUploadCallback (err : Option JsError) (reqFile : Option MulterFile) :
    List NextCall :=
  let block : List NextCall × Bool :=
    match err with
    | some e =>
      if e.message ≠ "Only PDF and DOC files are allowed" then
        if reqFile.isSome then ([NextCall.withError e], true) else ([], false)
      else ([NextCall.withError e], true)
    | none => ([], false)
  if block.2 then block.1 else block.1 ++ [NextCall.plain]

/-! ## Server, the Application router -/

/-- HTTP methods. -/
inductive Method where
  | GET | POST | PATCH | PUT | DELETE
  deriving DecidableEq, Repr

/-- A request as it reaches the Application router, after `authenticateUser`.
`role` is the role of the session, `path` the segments of the path below the mount point,
`uploadErr` and `file` are what `upload.single("resume")` reports to its callback and leaves
in `req.file` (multer sets `req.file` only for a resume part it received and stored). -/
structure Request where
  method : Method
  path : List String
  role : String
  body : List (String × String)
  uploadErr : Option JsError
  file : Option MulterFile
  deriving Repr

/-- The errors with which a stage of a route ends a request. -/
inductive HttpError where
  | upload (err : JsError)
  | validation (msgs : List String)
  | authorization
  deriving DecidableEq, Repr

/-- What one handler of a route does with a request: pass it on, end it with an error, answer
it (the controllers), or never call `next`. -/
inductive Step where
  | pass
  | fail (err : HttpError)
  | respond
  | stall
  deriving DecidableEq, Repr

/-- The handlers registered on the routes of ApplicationRouter.js. -/
inductive Handler where
  | uploadCallback
  | checkInput
  | inputValidationMiddleware
  | userAuthorizationHandler (roles : List String)
  | getCandidateAppliedJobs
  | applyInJob
  | getRecruiterPostJobs
  | updateJobStatus
  | getResumeFile
  deriving DecidableEq, Repr

/-- The two validation stages of `POST /apply`, whose files (`Validation/ApplicationDataRules`,
`Validation/ValidationMiddleware`) are absent: each either passes the
request on (`none`) or ends it with a validation error carrying messages. -/
structure Validators where
  checkInput : Request → Option (List String)
  inputValidationMiddleware : Request → Option (List String)

/-- Modelled from the spec: `userAuthorizationHandler` of `Middleware/UserAuthorizationMiddleware`
is missing; the Authorization Gate permits the request only if the role is a member of the
required-role set and otherwise fails with an Authorization error. -/
def userAuthorizationHandler (roles : List String) (req : Request) : Step :=
  if roles.contains req.role then Step.pass else Step.fail HttpError.authorization

/-- The upload stage of `POST /apply` (ApplicationRouter.js lines 30-43): Express acts on the
first call of `next` made by the callback. -/
def uploadStage (req : Request) : Step :=
  match (applyUploadCallback req.uploadErr req.file).head? with
  | none => Step.stall
  | some NextCall.plain => Step.pass
  | some (NextCall.withError e) => Step.fail (HttpError.upload e)

/-- One handler applied to a request. -/
def step (v : Validators) : Handler → Request → Step
  | Handler.uploadCallback, req => uploadStage req
  | Handler.checkInput, req =>
    match v.checkInput req with
    | none => Step.pass
    | some msgs => Step.fail (HttpError.validation msgs)
  | Handler.inputValidationMiddleware, req =>
    match v.inputValidationMiddleware req with
    | none => Step.pass
    | some msgs => Step.fail (HttpError.validation msgs)
  | Handler.userAuthorizationHandler roles, req => userAuthorizationHandler roles req
  | Handler.getCandidateAppliedJobs, _ => Step.respond
  | Handler.applyInJob, _ => Step.respond
  | Handler.getRecruiterPostJobs, _ => Step.respond
  | Handler.updateJobStatus, _ => Step.respond
  | Handler.getResumeFile, _ => Step.respond

/-- Result of a route: the handlers that ran, in order, and the error that ended the request. -/
structure Outcome where
  ran : List Handler
  error : Option HttpError
  deriving DecidableEq, Repr

/-- Express runs the handlers of a route in their registered order; a handler that does not
pass the request on is the last one to run. -/
def runStack (v : Validators) : List Handler → Request → Outcome
  | [], _ => { ran := [], error := none }
  | h :: rest, req =>
    match step v h req with
    | Step.pass =>
      let o := runStack v rest req
      { ran := h :: o.ran, error := o.error }
    | Step.fail e => { ran := [h], error := some e }
    | Step.respond => { ran := [h], error := none }
    | Step.stall => { ran := [h], error := none }

/-- A segment of a route path: a literal or a `:name` parameter. -/
inductive Seg where
  | lit (s : String)
  | param (name : String)
  deriving DecidableEq, Repr

/-- Whether a path segment of a request fits a segment of a route path. Literal segments are
compared in the spelling the route was registered with; that Express by default also accepts
another letter case and a trailing slash, and wants a `:name` segment non-empty, is left out. -/
def Seg.fits : Seg → String → Bool
  | Seg.lit s, t => s == t
  | Seg.param _, _ => true

/-- Whether a request path fits a route path, segment by segment. -/
def pathFits : List Seg → List String → Bool
  | [], [] => true
  | s :: ss, t :: ts => s.fits t && pathFits ss ts
  | _, _ => false

/-- A registered route: method, path and handlers. -/
structure Route where
  method : Method
  pattern : List Seg
  stack : List Handler
  deriving Repr

/-- The routes of ApplicationRouter.js in their registered order (lines 22-66). -/
def ApplicationRouter : List Route :=
  [ { method := Method.GET, pattern := [Seg.lit "applicant-jobs"],
      stack := [Handler.userAuthorizationHandler ["user"], Handler.getCandidateAppliedJobs] },
    { method := Method.POST, pattern := [Seg.lit "apply"],
      stack := [Handler.uploadCallback, Handler.checkInput, Handler.inputValidationMiddleware,
                Handler.userAuthorizationHandler ["user"], Handler.applyInJob] },
    { method := Method.GET, pattern := [Seg.lit "recruiter-jobs"],
      stack := [Handler.userAuthorizationHandler ["recruiter"], Handler.getRecruiterPostJobs] },
    { method := Method.PATCH, pattern := [Seg.param "id"],
      stack := [Handler.userAuthorizationHandler ["recruiter"], Handler.updateJobStatus] },
    { method := Method.GET, pattern := [Seg.param "applicationId", Seg.lit "resume"],
      stack := [Handler.userAuthorizationHandler ["user", "recruiter"],
                Handler.getResumeFile] } ]

/-- The first registered route whose method and path fit the request runs its handlers;
a request that fits no route runs none. -/
def dispatch (v : Validators) (routes : List Route) (req : Request) : Outcome :=
  match routes.find? (fun r => decide (r.method = req.method) && pathFits r.pattern req.path) with
  | some r => runStack v r.stack req
  | none => { ran := [], error := none }

/-- An Application record of the Application Repository. -/
structure Application where
  applicantId : Option String
  recruiterId : Option String
  jobId : Option String
  status : String
  dateOfApplication : Option String
  resume : Option MulterFile
  deriving DecidableEq, Repr

/-- Modelled from the spec: the controller `applyInJob` of `Controller/ApplicationController`
is missing; `apply` creates one Application with status `pending`, the ids and the date of the
form, and the resume reference only if a file was supplied. -/
def applyInJob (req : Request) (db : List Application) : List Application :=
  db ++ [{ applicantId := req.body.lookup "applicantId",
           recruiterId := req.body.lookup "recruiterId",
           jobId := req.body.lookup "jobId",
           status := "pending",
           dateOfApplication := req.body.lookup "dateOfApplication",
           resume := req.file }]

/-- The Application records after the router handled a request: only `applyInJob` writes. -/
def applicationsAfter (v : Validators) (req : Request) (db : List Application) :
    List Application :=
  if Handler.applyInJob ∈ (dispatch v ApplicationRouter req).ran then applyInJob req db else db

/-- A `POST /apply` request. -/
def applyRequest (role : String) (body : List (String × String)) (uploadErr : Option JsError)
    (file : Option MulterFile) : Request :=
  { method := Method.POST, path := ["apply"], role := role, body := body,
    uploadErr := uploadErr, file := file }

/-! ## Client, Job.jsx -/

/-- The `File` selected in the input `resume-input`, as far as `preConfirm` looks at it. -/
structure BrowserFile where
  name : String
  type : String
  deriving DecidableEq, Repr

/-- The array `allowedTypes` of `preConfirm` (Job.jsx line 75). -/
def allowedTypes : List String :=
  ["application/pdf", "application/msword",
   "application/vnd.openxmlformats-officedocument.wordprocessingml.document"]

/-- Result of `preConfirm`: `false` after `Swal.showValidationMessage(message)`, or the value
`selectedFile || null` the dialog resolves to. -/
inductive PreConfirm where
  | invalid (validationMessage : String)
  | value (file : Option BrowserFile)
  deriving DecidableEq, Repr

/-- The function `preConfirm` of the apply dialog (Job.jsx lines 70-82); `selectedFile` is
`fileInput.files[0]`, `none` when no file was chosen. -/
def preConfirm (selectedFile : Option BrowserFile) : PreConfirm :=
  match selectedFile with
  | some f =>
    if !allowedTypes.contains f.type then
      PreConfirm.invalid "Only PDF and DOC files are allowed"
    else PreConfirm.value (some f)
  | none => PreConfirm.value none

/-- JavaScript values: what `catch (error)` may receive and what a response body may hold. -/
inductive JsVal where
  | undefined
  | null
  | bool (b : Bool)
  | num (n : Int)
  | str (s : String)
  | arr (items : List JsVal)
  | obj (props : List (String × JsVal))

/-- Whether a value is `null` or `undefined`. -/
def JsVal.nullish : JsVal → Bool
  | JsVal.undefined => true
  | JsVal.null => true
  | _ => false

/-- JavaScript truthiness, used by `if (...)` and `||`. -/
def JsVal.truthy : JsVal → Bool
  | JsVal.undefined => false
  | JsVal.null => false
  | JsVal.bool b => b
  | JsVal.num n => n != 0
  | JsVal.str s => s != ""
  | JsVal.arr _ => true
  | JsVal.obj _ => true

/-- Value of the property `k` of a value that is not nullish, for the names the catch block
reads (`response`, `data`, `error`, `msg`, `message`): present on objects that carry them,
`undefined` on every primitive and on arrays. -/
def JsVal.prop : JsVal → String → JsVal
  | JsVal.obj props, k => (props.lookup k).getD JsVal.undefined
  | _, _ => JsVal.undefined

/-- Value of `v[0]` for a value that is not nullish: the first element of an array, the first
character of a string, the property `0` of an object, `undefined` otherwise. -/
def JsVal.first : JsVal → JsVal
  | JsVal.arr items => items.head?.getD JsVal.undefined
  | JsVal.str s =>
    match s.data with
    | c :: _ => JsVal.str (String.singleton c)
    | [] => JsVal.undefined
  | JsVal.obj props => (props.lookup "0").getD JsVal.undefined
  | _ => JsVal.undefined

/-- The exception a property read on `null` or `undefined` throws. -/
inductive JsThrow where
  | typeError
  deriving DecidableEq, Repr

/-- Member access `v.k`: throws on a nullish `v`. -/
def member (v : JsVal) (k : String) : Except JsThrow JsVal :=
  if v.nullish then Except.error JsThrow.typeError else Except.ok (v.prop k)

/-- Index access `v[0]`: throws on a nullish `v`. -/
def index0 (v : JsVal) : Except JsThrow JsVal :=
  if v.nullish then Except.error JsThrow.typeError else Except.ok v.first

/-- Optional member access `v?.k` followed by the rest of its chain: a nullish `v` makes the
whole chain `undefined` without evaluating the rest. -/
def optMember (v : JsVal) (k : String) (rest : JsVal → Except JsThrow JsVal) :
    Except JsThrow JsVal :=
  if v.nullish then Except.ok JsVal.undefined else rest (v.prop k)

/-- The options of one `Swal.fire` call. -/
structure SwalOptions where
  icon : String
  title : String
  text : JsVal

/-- The `catch (error)` block of `handleApply` (Job.jsx lines 117-132): the dialogs it shows,
or the exception it throws while computing the text of the dialog. -/
def handleApplyCatch (error : JsVal) : Except JsThrow (List SwalOptions) := do
  let cond ← optMember error "response" fun r =>
    optMember r "data" fun d => optMember d "error" Except.ok
  if cond.truthy then
    let text ← optMember error "response" fun r =>
      optMember r "data" fun d => optMember d "error" fun e => do
        let x ← index0 e
        member x "msg"
    return [{ icon := "error", title := "Oops...", text := text }]
  else
    let data ← optMember error "response" fun r => optMember r "data" Except.ok
    let text ← if data.truthy then Except.ok data else member error "message"
    return [{ icon := "error", title := "Oops...", text := text }]

/-- An error whose response body is `data`, as axios rejects with. -/
def axiosError (message : String) (data : JsVal) : JsVal :=
  JsVal.obj [("message", JsVal.str message), ("response", JsVal.obj [("data", data)])]

/-! ## Decimal digits -/

/-- The value of a decimal digit character, used to read back what `toString` printed. -/
def digitValue (c : Char) : Nat := c.toNat - 48

/-! ## Lemmas -/

/-- A decimal digit character is never the separator. -/
theorem digitChar_ne_dash (k : Nat) (h : k < 10) : Nat.digitChar k ≠ '-' := by
  interval_cases k <;> decide

/-- Reading a digit character gives back the digit. -/
theorem digitValue_digitChar (k : Nat) (h : k < 10) : digitValue (Nat.digitChar k) = k := by
  interval_cases k <;> rfl

/-- The digits `Nat.toDigitsCore` puts before its accumulator hold no separator and read back
as the number, whenever the fuel exceeds the number. -/
theorem toDigitsCore_spec (fuel : Nat) : ∀ (n : Nat) (ds : List Char), n < fuel →
    ∃ xs, Nat.toDigitsCore 10 fuel n ds = xs ++ ds ∧ (∀ c ∈ xs, c ≠ '-') ∧
      xs.foldl (fun a c => 10 * a + digitValue c) 0 = n := by
  induction fuel with
  | zero => intro n ds h; omega
  | succ fuel ih =>
    intro n ds h
    have hlt : n % 10 < 10 := Nat.mod_lt _ (by decide)
    by_cases h0 : n / 10 = 0
    · refine ⟨[Nat.digitChar (n % 10)], ?_, ?_, ?_⟩
      · simp [Nat.toDigitsCore, h0]
      · intro c hc
        simp at hc
        rw [hc]
        exact digitChar_ne_dash _ hlt
      · simp [digitValue_digitChar _ hlt]
        omega
    · obtain ⟨xs, hxs, hd, hv⟩ := ih (n / 10) (Nat.digitChar (n % 10) :: ds) (by omega)
      refine ⟨xs ++ [Nat.digitChar (n % 10)], ?_, ?_, ?_⟩
      · simp [Nat.toDigitsCore, h0, hxs]
      · intro c hc
        simp at hc
        rcases hc with hc | hc
        · exact hd c hc
        · rw [hc]
          exact digitChar_ne_dash _ hlt
      · simp [List.foldl_append, hv, digitValue_digitChar _ hlt]
        omega

/-- The decimal rendering of a number holds no separator and reads back as the number. -/
theorem decimal_spec (n : Nat) :
    (∀ c ∈ (toString n).data, c ≠ '-') ∧
      (toString n).data.foldl (fun a c => 10 * a + digitValue c) 0 = n := by
  obtain ⟨xs, hxs, hd, hv⟩ := toDigitsCore_spec (n + 1) n [] (by omega)
  have hdata : (toString n).data = xs := by
    show (Nat.repr n).data = xs
    simp [Nat.repr, Nat.toDigits, hxs, List.asString]
  rw [hdata]
  exact ⟨hd, hv⟩

/-- Two lists split at their first separator agree on both sides of it. -/
theorem append_dash_inj : ∀ (xs ys s t : List Char), (∀ c ∈ xs, c ≠ '-') →
    (∀ c ∈ ys, c ≠ '-') → xs ++ '-' :: s = ys ++ '-' :: t → xs = ys ∧ s = t := by
  intro xs
  induction xs with
  | nil =>
    intro ys s t _ hy h
    cases ys with
    | nil => simpa using h
    | cons y ys =>
      simp at h
      exact absurd h.1.symm (hy y (by simp))
  | cons x xs ih =>
    intro ys s t hx hy h
    cases ys with
    | nil =>
      simp at h
      exact absurd h.1 (hx x (by simp))
    | cons y ys =>
      simp at h
      obtain ⟨h1, h2⟩ := ih ys s t (fun c hc => hx c (by simp [hc]))
        (fun c hc => hy c (by simp [hc])) h.2
      exact ⟨by rw [h.1, h1], h2⟩

/-- The characters of a stored filename. -/
theorem filename_data (now rnd : Nat) (file : MulterFile) :
    (filename now rnd file).data =
      (toString now).data ++ '-' :: ((toString rnd).data ++ '-' :: file.originalname.data) := by
  simp [filename, String.data_append]

/-- C9: the stored filename is the decimal digits of the timestamp, a dash, the decimal digits
of the random integer, a dash, then the original filename; and two uploads get the same stored
filename exactly when their timestamp, random integer and original filename are all equal. -/
theorem filename_collision_free (now rnd now2 rnd2 : Nat) (file file2 : MulterFile) :
    (filename now rnd file).data =
      Nat.toDigits 10 now ++ '-' :: (Nat.toDigits 10 rnd ++ '-' :: file.originalname.data) ∧
    (filename now rnd file = filename now2 rnd2 file2 ↔
      (now = now2 ∧ rnd = rnd2 ∧ file.originalname = file2.originalname)) := by
  refine ⟨filename_data now rnd file, ?_, ?_⟩
  · intro h
    have hdata := congrArg String.data h
    rw [filename_data, filename_data] at hdata
    obtain ⟨h1, hrest⟩ := append_dash_inj _ _ _ _ (decimal_spec now).1 (decimal_spec now2).1 hdata
    obtain ⟨h2, h3⟩ := append_dash_inj _ _ _ _ (decimal_spec rnd).1 (decimal_spec rnd2).1 hrest
    refine ⟨?_, ?_, String.ext h3⟩
    · have := (decimal_spec now).2
      rw [h1, (decimal_spec now2).2] at this
      exact this.symm
    · have := (decimal_spec rnd).2
      rw [h2, (decimal_spec rnd2).2] at this
      exact this.symm
  · rintro ⟨h1, h2, h3⟩
    simp [filename, h1, h2, h3]

/-- Membership in `allowedMimes`, spelled out. -/
theorem mem_allowedMimes_iff (t : String) :
    allowedMimes.contains t = true ↔
      (t = "application/pdf" ∨ t = "application/msword" ∨
        t = "application/vnd.openxmlformats-officedocument.wordprocessingml.document") := by
  simp [allowedMimes]

/-- A file whose mimetype is none of the three allowed ones is rejected by `fileFilter`. -/
theorem fileFilter_rejects (file : MulterFile)
    (ht : ¬ (file.mimetype = "application/pdf" ∨ file.mimetype = "application/msword" ∨
      file.mimetype =
        "application/vnd.openxmlformats-officedocument.wordprocessingml.document")) :
    fileFilter file =
      { error := some { message := "Only PDF and DOC files are allowed" },
        acceptFile := false } := by
  rw [← mem_allowedMimes_iff] at ht
  unfold fileFilter
  rw [if_neg ht]

/-- C4: `fileFilter` calls `cb(null, true)` exactly for the mimetypes `application/pdf`,
`application/msword` and
`application/vnd.openxmlformats-officedocument.wordprocessingml.document`, and for every other
mimetype it calls `cb(error, false)` with the message "Only PDF and DOC files are allowed". -/
theorem fileFilter_accepts_iff_allowed (file : MulterFile) :
    (fileFilter file = { error := none, acceptFile := true } ↔
      (file.mimetype = "application/pdf" ∨ file.mimetype = "application/msword" ∨
        file.mimetype =
          "application/vnd.openxmlformats-officedocument.wordprocessingml.document")) ∧
    (fileFilter file =
        { error := some { message := "Only PDF and DOC files are allowed" },
          acceptFile := false } ↔
      ¬ (file.mimetype = "application/pdf" ∨ file.mimetype = "application/msword" ∨
        file.mimetype =
          "application/vnd.openxmlformats-officedocument.wordprocessingml.document")) := by
  rw [← mem_allowedMimes_iff]
  by_cases h : allowedMimes.contains file.mimetype = true
  · simp [fileFilter, h]
  · simp [fileFilter, h]

/-- C10: for every upload result and every `req.file`, the upload callbacks of `POST /apply` and
of `PATCH /api/v1/Users` call `next` exactly once; the call carries the error exactly when an
error is present and its message is the file-type message or `req.file` is set, and it is the
plain `next()` exactly when there is no error or the error has another message and `req.file`
is absent. -/
theorem upload_callbacks_call_next_once (err : Option JsError) (reqFile : Option MulterFile) :
    (applyUploadCallback err reqFile).length = 1 ∧
    (updateUserUploadCallback err reqFile).length = 1 ∧
    (∀ e, NextCall.withError e ∈ applyUploadCallback err reqFile ↔
      (err = some e ∧ (e.message = "Only PDF and DOC files are allowed" ∨ reqFile.isSome = true))) ∧
    (∀ e, NextCall.withError e ∈ updateUserUploadCallback err reqFile ↔
      (err = some e ∧ (e.message = "Only PDF and DOC files are allowed" ∨ reqFile.isSome = true))) ∧
    (NextCall.plain ∈ applyUploadCallback err reqFile ↔
      (err = none ∨ (∃ e, err = some e ∧ e.message ≠ "Only PDF and DOC files are allowed" ∧
        reqFile = none))) ∧
    (NextCall.plain ∈ updateUserUploadCallback err reqFile ↔
      (err = none ∨ (∃ e, err = some e ∧ e.message ≠ "Only PDF and DOC files are allowed" ∧
        reqFile = none))) := by
  cases err with
  | none => simp [applyUploadCallback, updateUserUploadCallback]
  | some e =>
    by_cases hm : e.message = "Only PDF and DOC files are allowed"
    · simp [applyUploadCallback, updateUserUploadCallback, hm]
      intro e1
      constructor
      · rintro rfl
        exact ⟨rfl, Or.inl hm⟩
      · rintro ⟨h, _⟩
        exact h.symm
    · cases reqFile with
      | none => simp [applyUploadCallback, updateUserUploadCallback, hm]
      | some f =>
        simp [applyUploadCallback, updateUserUploadCallback, hm]
        intro e1
        exact eq_comm

/-- C6, as stated, fails: with `req.file` absent the file-type error is still forwarded with
`next(err)`; the request does not proceed with `next()`. -/
theorem fileType_error_without_file_is_forwarded :
    applyUploadCallback (some { message := "Only PDF and DOC files are allowed" }) none =
      [NextCall.withError { message := "Only PDF and DOC files are allowed" }] ∧
    applyUploadCallback (some { message := "Only PDF and DOC files are allowed" }) none ≠
      [NextCall.plain] := by
  decide

/-- C6, amended: an upload error is forwarded with `next(err)` exactly when its message is the
file-type message or `req.file` is set; the request proceeds with `next()` exactly when the
message is another one and `req.file` is absent. -/
theorem upload_error_fatal_iff (e : JsError) (reqFile : Option MulterFile) :
    (applyUploadCallback (some e) reqFile = [NextCall.withError e] ↔
      (e.message = "Only PDF and DOC files are allowed" ∨ reqFile.isSome = true)) ∧
    (applyUploadCallback (some e) reqFile = [NextCall.plain] ↔
      (e.message ≠ "Only PDF and DOC files are allowed" ∧ reqFile = none)) := by
  by_cases hm : e.message = "Only PDF and DOC files are allowed"
  · simp [applyUploadCallback, hm]
  · cases reqFile <;> simp [applyUploadCallback, hm]

/-- C7: for every content type `t`, `preConfirm` returns the selected file of type `t` exactly
when the server's `fileFilter` accepts a file of mimetype `t`, and it returns `false` with the
message "Only PDF and DOC files are allowed" exactly when `fileFilter` rejects it. -/
theorem preConfirm_agrees_with_fileFilter (t name originalname : String) :
    (preConfirm (some { name := name, type := t }) =
        PreConfirm.value (some { name := name, type := t }) ↔
      fileFilter { originalname := originalname, mimetype := t } =
        { error := none, acceptFile := true }) ∧
    (preConfirm (some { name := name, type := t }) =
        PreConfirm.invalid "Only PDF and DOC files are allowed" ↔
      fileFilter { originalname := originalname, mimetype := t } =
        { error := some { message := "Only PDF and DOC files are allowed" },
          acceptFile := false }) := by
  have hsame : allowedTypes = allowedMimes := rfl
  by_cases h : allowedMimes.contains t = true
  · simp [preConfirm, fileFilter, hsame, h]
  · simp [preConfirm, fileFilter, hsame, h]

/-- A `POST /apply` request runs the five handlers of the second route. -/
theorem dispatch_apply (v : Validators) (req : Request) (hm : req.method = Method.POST)
    (hp : req.path = ["apply"]) :
    dispatch v ApplicationRouter req =
      runStack v [Handler.uploadCallback, Handler.checkInput, Handler.inputValidationMiddleware,
        Handler.userAuthorizationHandler ["user"], Handler.applyInJob] req := by
  simp [dispatch, ApplicationRouter, hm, hp, pathFits, Seg.fits, List.find?]

/-- The upload stage passes the request on or ends it with the error multer reported. -/
theorem uploadStage_cases (req : Request) :
    (uploadStage req = Step.pass ∧
      (req.uploadErr = none ∨ ∃ e, req.uploadErr = some e ∧
        e.message ≠ "Only PDF and DOC files are allowed" ∧ req.file = none)) ∨
    (∃ e, uploadStage req = Step.fail (HttpError.upload e) ∧ req.uploadErr = some e ∧
      (e.message = "Only PDF and DOC files are allowed" ∨ req.file.isSome = true)) := by
  unfold uploadStage
  cases he : req.uploadErr with
  | none => simp [applyUploadCallback]
  | some e =>
    by_cases hmsg : e.message = "Only PDF and DOC files are allowed"
    · simp [applyUploadCallback, hmsg]
    · cases hf : req.file <;> simp [applyUploadCallback, hmsg]

/-- The chain of `POST /apply` for a role other than `user`: the request ends with the error
of the first handler, in the registered order, that does not pass it on, which is the
Authorization error only when the upload callback and both validation stages pass it on;
`applyInJob` never runs and no Application record is created. -/
theorem apply_chain_non_user (v : Validators) (req : Request) (db : List Application)
    (hm : req.method = Method.POST) (hp : req.path = ["apply"]) (hr : req.role ≠ "user") :
    Handler.applyInJob ∉ (dispatch v ApplicationRouter req).ran ∧
    applicationsAfter v req db = db ∧
    dispatch v ApplicationRouter req =
      (match uploadStage req with
        | Step.fail e => { ran := [Handler.uploadCallback], error := some e }
        | Step.respond => { ran := [Handler.uploadCallback], error := none }
        | Step.stall => { ran := [Handler.uploadCallback], error := none }
        | Step.pass =>
          match v.checkInput req with
          | some msgs =>
            { ran := [Handler.uploadCallback, Handler.checkInput],
              error := some (HttpError.validation msgs) }
          | none =>
            match v.inputValidationMiddleware req with
            | some msgs =>
              { ran := [Handler.uploadCallback, Handler.checkInput,
                  Handler.inputValidationMiddleware],
                error := some (HttpError.validation msgs) }
            | none =>
              { ran := [Handler.uploadCallback, Handler.checkInput,
                  Handler.inputValidationMiddleware,
                  Handler.userAuthorizationHandler ["user"]],
                error := some HttpError.authorization }) ∧
    (∃ e, (dispatch v ApplicationRouter req).error = some e) ∧
    ((dispatch v ApplicationRouter req).error = some HttpError.authorization ↔
      (uploadStage req = Step.pass ∧ v.checkInput req = none ∧
        v.inputValidationMiddleware req = none)) := by
  have key : Handler.applyInJob ∉ (dispatch v ApplicationRouter req).ran ∧
      dispatch v ApplicationRouter req =
        (match uploadStage req with
          | Step.fail e => { ran := [Handler.uploadCallback], error := some e }
          | Step.respond => { ran := [Handler.uploadCallback], error := none }
          | Step.stall => { ran := [Handler.uploadCallback], error := none }
          | Step.pass =>
            match v.checkInput req with
            | some msgs =>
              { ran := [Handler.uploadCallback, Handler.checkInput],
                error := some (HttpError.validation msgs) }
            | none =>
              match v.inputValidationMiddleware req with
              | some msgs =>
                { ran := [Handler.uploadCallback, Handler.checkInput,
                    Handler.inputValidationMiddleware],
                  error := some (HttpError.validation msgs) }
              | none =>
                { ran := [Handler.uploadCallback, Handler.checkInput,
                    Handler.inputValidationMiddleware,
                    Handler.userAuthorizationHandler ["user"]],
                  error := some HttpError.authorization }) ∧
      (∃ e, (dispatch v ApplicationRouter req).error = some e) ∧
      ((dispatch v ApplicationRouter req).error = some HttpError.authorization ↔
        (uploadStage req = Step.pass ∧ v.checkInput req = none ∧
          v.inputValidationMiddleware req = none)) := by
    rw [dispatch_apply v req hm hp]
    rcases uploadStage_cases req with ⟨hu, _⟩ | ⟨e, hu, _⟩
    · cases hc : v.checkInput req with
      | some msgs => simp [runStack, step, hu, hc]
      | none =>
        cases hi : v.inputValidationMiddleware req with
        | some msgs => simp [runStack, step, hu, hc, hi]
        | none => simp [runStack, step, hu, hc, hi, userAuthorizationHandler, hr]
    · simp [runStack, step, hu]
  refine ⟨key.1, ?_, key.2.1, key.2.2.1, key.2.2.2⟩
  simp [applicationsAfter, key.1]

/-- The chain of `POST /apply` at a recruiter applying without a resume. -/
theorem apply_chain_non_user_at_recruiter :
    (applyRequest "recruiter" [("jobId", "j1")] none none).role ≠ "user" ∧
    Handler.applyInJob ∉
      (dispatch { checkInput := fun _ => none, inputValidationMiddleware := fun _ => none }
        ApplicationRouter (applyRequest "recruiter" [("jobId", "j1")] none none)).ran ∧
    applicationsAfter { checkInput := fun _ => none, inputValidationMiddleware := fun _ => none }
      (applyRequest "recruiter" [("jobId", "j1")] none none) [] = [] :=
  ⟨by decide,
   (apply_chain_non_user { checkInput := fun _ => none, inputValidationMiddleware := fun _ => none }
      (applyRequest "recruiter" [("jobId", "j1")] none none) [] rfl rfl (by decide)).1,
   (apply_chain_non_user { checkInput := fun _ => none, inputValidationMiddleware := fun _ => none }
      (applyRequest "recruiter" [("jobId", "j1")] none none) [] rfl rfl (by decide)).2.1⟩

/-- C1, failing input: an admin applying with a PNG resume. The role gate of `POST /apply` is
registered fourth, so only the upload callback runs and the request ends with the upload error
"Only PDF and DOC files are allowed", not with the Authorization error; on the sibling route
`GET /applicant-jobs`, whose gate is registered first, the same admin ends with the
Authorization error. -/
theorem apply_admin_rejected_file_ends_with_upload_error :
    (applyRequest "admin" []
        (fileFilter { originalname := "photo.png", mimetype := "image/png" }).error
        none).role ≠ "user" ∧
    dispatch { checkInput := fun _ => none, inputValidationMiddleware := fun _ => none }
        ApplicationRouter
        (applyRequest "admin" []
          (fileFilter { originalname := "photo.png", mimetype := "image/png" }).error
          none) =
      { ran := [Handler.uploadCallback],
        error := some (HttpError.upload { message := "Only PDF and DOC files are allowed" }) } ∧
    (dispatch { checkInput := fun _ => none, inputValidationMiddleware := fun _ => none }
        ApplicationRouter
        (applyRequest "admin" []
          (fileFilter { originalname := "photo.png", mimetype := "image/png" }).error
          none)).error ≠ some HttpError.authorization ∧
    dispatch { checkInput := fun _ => none, inputValidationMiddleware := fun _ => none }
        ApplicationRouter
        { method := Method.GET, path := ["applicant-jobs"], role := "admin", body := [],
          uploadErr := none, file := none } =
      { ran := [Handler.userAuthorizationHandler ["user"]],
        error := some HttpError.authorization } := by
  decide

/-- C2: when the resume of a `POST /apply` request has a content type outside the allowed set,
`fileFilter` produces the error "Only PDF and DOC files are allowed", the upload callback
forwards it with `next(err)` whatever `req.file` is, only the upload stage runs, and no
Application record is created. -/
theorem apply_rejected_file_type_fails (v : Validators) (req : Request) (db : List Application)
    (file : MulterFile) (hm : req.method = Method.POST) (hp : req.path = ["apply"])
    (ht : ¬ (file.mimetype = "application/pdf" ∨ file.mimetype = "application/msword" ∨
      file.mimetype =
        "application/vnd.openxmlformats-officedocument.wordprocessingml.document"))
    (he : req.uploadErr = (fileFilter file).error) :
    fileFilter file =
      { error := some { message := "Only PDF and DOC files are allowed" },
        acceptFile := false } ∧
    applyUploadCallback req.uploadErr req.file =
      [NextCall.withError { message := "Only PDF and DOC files are allowed" }] ∧
    dispatch v ApplicationRouter req =
      { ran := [Handler.uploadCallback],
        error := some (HttpError.upload { message := "Only PDF and DOC files are allowed" }) } ∧
    applicationsAfter v req db = db := by
  have hff := fileFilter_rejects file ht
  have hcb : applyUploadCallback req.uploadErr req.file =
      [NextCall.withError { message := "Only PDF and DOC files are allowed" }] := by
    rw [he, hff]
    simp [applyUploadCallback]
  have hd : dispatch v ApplicationRouter req =
      { ran := [Handler.uploadCallback],
        error := some (HttpError.upload { message := "Only PDF and DOC files are allowed" }) } := by
    rw [dispatch_apply v req hm hp]
    simp [runStack, step, uploadStage, hcb]
  refine ⟨hff, hcb, hd, ?_⟩
  simp [applicationsAfter, hd]

/-- C2, at a user applying with a PNG resume. -/
theorem apply_rejected_file_type_fails_witness :
    dispatch { checkInput := fun _ => none, inputValidationMiddleware := fun _ => none }
      ApplicationRouter
      (applyRequest "user" [("jobId", "j1")]
        (some { message := "Only PDF and DOC files are allowed" })
        (some { originalname := "cv.png", mimetype := "image/png" })) =
      { ran := [Handler.uploadCallback],
        error := some (HttpError.upload { message := "Only PDF and DOC files are allowed" }) } :=
  (apply_rejected_file_type_fails
    { checkInput := fun _ => none, inputValidationMiddleware := fun _ => none }
    (applyRequest "user" [("jobId", "j1")]
      (some { message := "Only PDF and DOC files are allowed" })
      (some { originalname := "cv.png", mimetype := "image/png" }))
    [] { originalname := "cv.png", mimetype := "image/png" } rfl rfl (by decide) (by decide)).2.2.1

/-- C3: for every `POST /apply` request without a resume (`req.file` absent) for which the
upload step reports no error, the upload callback calls `next()` with no error, the chain
continues with `checkInput` on the same request, and no upload error ends the request. -/
theorem apply_without_resume_passes_upload (v : Validators) (req : Request)
    (hm : req.method = Method.POST) (hp : req.path = ["apply"])
    (hf : req.file = none) (he : req.uploadErr = none) :
    applyUploadCallback req.uploadErr req.file = [NextCall.plain] ∧
    uploadStage req = Step.pass ∧
    (dispatch v ApplicationRouter req).ran =
      Handler.uploadCallback ::
        (runStack v [Handler.checkInput, Handler.inputValidationMiddleware,
          Handler.userAuthorizationHandler ["user"], Handler.applyInJob] req).ran ∧
    (dispatch v ApplicationRouter req).error =
      (runStack v [Handler.checkInput, Handler.inputValidationMiddleware,
        Handler.userAuthorizationHandler ["user"], Handler.applyInJob] req).error ∧
    (∀ e, (dispatch v ApplicationRouter req).error ≠ some (HttpError.upload e)) := by
  have hcb : applyUploadCallback req.uploadErr req.file = [NextCall.plain] := by
    rw [he, hf]; rfl
  have hu : uploadStage req = Step.pass := by
    simp [uploadStage, hcb]
  have hd : dispatch v ApplicationRouter req =
      runStack v [Handler.uploadCallback, Handler.checkInput, Handler.inputValidationMiddleware,
        Handler.userAuthorizationHandler ["user"], Handler.applyInJob] req :=
    dispatch_apply v req hm hp
  have hstep : step v Handler.uploadCallback req = Step.pass := hu
  refine ⟨hcb, hu, ?_, ?_, ?_⟩
  · rw [hd]; conv_lhs => rw [runStack]
    simp [hstep]
  · rw [hd]; conv_lhs => rw [runStack]
    simp [hstep]
  · intro e
    rw [hd]
    cases hc : v.checkInput req with
    | some msgs => simp [runStack, step, hu, hc]
    | none =>
      cases hi : v.inputValidationMiddleware req with
      | some msgs => simp [runStack, step, hu, hc, hi]
      | none =>
        by_cases hr : req.role = "user"
        · simp [runStack, step, hu, hc, hi, userAuthorizationHandler, hr]
        · simp [runStack, step, hu, hc, hi, userAuthorizationHandler, hr]

/-- C3, at a user applying without a resume. -/
theorem apply_without_resume_passes_upload_witness :
    uploadStage (applyRequest "user" [("jobId", "j1")] none none) = Step.pass ∧
    (dispatch { checkInput := fun _ => none, inputValidationMiddleware := fun _ => none }
      ApplicationRouter (applyRequest "user" [("jobId", "j1")] none none)).ran =
      Handler.uploadCallback ::
        (runStack { checkInput := fun _ => none, inputValidationMiddleware := fun _ => none }
          [Handler.checkInput, Handler.inputValidationMiddleware,
            Handler.userAuthorizationHandler ["user"], Handler.applyInJob]
          (applyRequest "user" [("jobId", "j1")] none none)).ran :=
  ⟨(apply_without_resume_passes_upload
      { checkInput := fun _ => none, inputValidationMiddleware := fun _ => none }
      (applyRequest "user" [("jobId", "j1")] none none) rfl rfl rfl rfl).2.1,
   (apply_without_resume_passes_upload
      { checkInput := fun _ => none, inputValidationMiddleware := fun _ => none }
      (applyRequest "user" [("jobId", "j1")] none none) rfl rfl rfl rfl).2.2.1⟩

/-- C5: a request reaches the controller of `GET /applicant-jobs` exactly for role `user`, of
`GET /recruiter-jobs` and `PATCH /:id` exactly for role `recruiter`, of
`GET /:applicationId/resume` exactly for roles `user` and `recruiter`; an admin is stopped by
the gate of each of the four routes and a recruiter by the gate of `GET /applicant-jobs`. -/
theorem application_router_role_gates (v : Validators) (req : Request) (id : String) :
    (Handler.getCandidateAppliedJobs ∈
        (dispatch v ApplicationRouter
          { req with method := Method.GET, path := ["applicant-jobs"] }).ran ↔
      req.role = "user") ∧
    (Handler.getRecruiterPostJobs ∈
        (dispatch v ApplicationRouter
          { req with method := Method.GET, path := ["recruiter-jobs"] }).ran ↔
      req.role = "recruiter") ∧
    (Handler.updateJobStatus ∈
        (dispatch v ApplicationRouter { req with method := Method.PATCH, path := [id] }).ran ↔
      req.role = "recruiter") ∧
    (Handler.getResumeFile ∈
        (dispatch v ApplicationRouter
          { req with method := Method.GET, path := [id, "resume"] }).ran ↔
      (req.role = "user" ∨ req.role = "recruiter")) ∧
    (dispatch v ApplicationRouter
        { req with role := "admin", method := Method.GET, path := ["applicant-jobs"] } =
      { ran := [Handler.userAuthorizationHandler ["user"]],
        error := some HttpError.authorization }) ∧
    (dispatch v ApplicationRouter
        { req with role := "admin", method := Method.GET, path := ["recruiter-jobs"] } =
      { ran := [Handler.userAuthorizationHandler ["recruiter"]],
        error := some HttpError.authorization }) ∧
    (dispatch v ApplicationRouter
        { req with role := "admin", method := Method.PATCH, path := [id] } =
      { ran := [Handler.userAuthorizationHandler ["recruiter"]],
        error := some HttpError.authorization }) ∧
    (dispatch v ApplicationRouter
        { req with role := "admin", method := Method.GET, path := [id, "resume"] } =
      { ran := [Handler.userAuthorizationHandler ["user", "recruiter"]],
        error := some HttpError.authorization }) ∧
    (dispatch v ApplicationRouter
        { req with role := "recruiter", method := Method.GET, path := ["applicant-jobs"] } =
      { ran := [Handler.userAuthorizationHandler ["user"]],
        error := some HttpError.authorization }) := by
  refine ⟨?_, ?_, ?_, ?_, ?_, ?_, ?_, ?_, ?_⟩
  · by_cases hr : req.role = "user" <;>
      simp [dispatch, ApplicationRouter, pathFits, Seg.fits, runStack, step,
        userAuthorizationHandler, hr]
  · by_cases hr : req.role = "recruiter" <;>
      simp [dispatch, ApplicationRouter, pathFits, Seg.fits, runStack, step,
        userAuthorizationHandler, hr]
  · by_cases hr : req.role = "recruiter" <;>
      simp [dispatch, ApplicationRouter, pathFits, Seg.fits, runStack, step,
        userAuthorizationHandler, hr]
  · by_cases hu : req.role = "user" <;> by_cases hr : req.role = "recruiter" <;>
      simp [dispatch, ApplicationRouter, pathFits, Seg.fits, runStack, step,
        userAuthorizationHandler, hu, hr]
  · simp [dispatch, ApplicationRouter, pathFits, Seg.fits, runStack, step,
      userAuthorizationHandler]
  · simp [dispatch, ApplicationRouter, pathFits, Seg.fits, runStack, step,
      userAuthorizationHandler]
  · simp [dispatch, ApplicationRouter, pathFits, Seg.fits, runStack, step,
      userAuthorizationHandler]
  · simp [dispatch, ApplicationRouter, pathFits, Seg.fits, runStack, step,
      userAuthorizationHandler]
  · simp [dispatch, ApplicationRouter, pathFits, Seg.fits, runStack, step,
      userAuthorizationHandler]

/-- The catch block on a response body whose error list starts with an object: one dialog,
showing the `msg` of that first element. -/
theorem handleApplyCatch_first_msg (message : String) (props : List (String × JsVal))
    (others : List JsVal) (more : List (String × JsVal)) :
    handleApplyCatch (axiosError message
        (JsVal.obj (("error", JsVal.arr (JsVal.obj props :: others)) :: more))) =
      Except.ok [{ icon := "error", title := "Oops...",
                   text := (props.lookup "msg").getD JsVal.undefined }] := by
  rfl

/-- C8, failing inputs: on a response body whose `error` is the empty list, or an object
without a property `0`, the catch block throws a TypeError and shows no dialog; on a caught
`null` it throws as well. -/
theorem handleApplyCatch_throws :
    handleApplyCatch (axiosError "Request failed with status code 400"
        (JsVal.obj [("error", JsVal.arr [])])) = Except.error JsThrow.typeError ∧
    handleApplyCatch (axiosError "Request failed with status code 500"
        (JsVal.obj [("error", JsVal.obj [("message", JsVal.str "Internal Server Error")])])) =
      Except.error JsThrow.typeError ∧
    handleApplyCatch JsVal.null = Except.error JsThrow.typeError := by
  refine ⟨rfl, rfl, rfl⟩

end JobPortal
